import Mathlib

/-!
Verification development for the IFRC GO Admin MCP server
(`src/api/mcp.js`, `src/src/index.ts`).

The embedding models:
* the response cache and `fetchWithCache` (src/api/mcp.js:1368-1398,
  src/src/index.ts:57-76 — the latter is the same function without the
  header block);
* the upstream query client's URL builders and operations;
* `getDrefStatistics` (src/api/mcp.js:1430-1448);
* the ERU type mapping and `getERUsByType`
  (src/api/mcp.js:1557-1573, 1588-1635);
* the zod argument schema of `get_completed_drefs`
  (src/api/mcp.js:1647-1648) and its handler;
* the stdio dispatcher of `src/src/index.ts:278-397`.

Modelling conventions:
* JSON values are the inductive `Json`; JavaScript numbers are `Int`
  (every numeric literal relevant to the claims is an integer);
* time instants (`Date.now()`) are `Nat` milliseconds.  JavaScript
  computes `now - timestamp` with signed arithmetic; `Nat` subtraction
  truncates at zero, but both sides classify a future timestamp as
  "fresh" (negative < TTL and 0 < TTL alike), so the branch taken always
  agrees with the source;
* the network is an oracle `Net` mapping URL, request headers and the
  current time to an outcome; issued requests are recorded (most recent
  first) in `ClientState.fetchLog` so that theorems can count upstream
  fetches;
* exceptions are `Except String`; thrown `Error(msg)` values are the
  `msg` strings.
-/

namespace IfrcMcp

/-- JSON values as parsed from the upstream API. -/
inductive Json where
  | null
  | bool (b : Bool)
  | num (n : Int)
  | str (s : String)
  | arr (elems : List Json)
  | obj (fields : List (String × Json))

/-- A value of the ERU type mapping object: either a numeric type id, or
the `_reverse` table (an object from type ids back to labels) that
`getERUTypeMapping` stores under the `_reverse` property
(src/api/mcp.js:1628). -/
inductive EruMapVal where
  | key (k : Int)
  | table (rm : List (Int × String))
deriving DecidableEq

/-- The ERU type mapping built by `getERUTypeMapping`: a JavaScript
object, i.e. an association list in property insertion order (all keys
are non-integer-like strings, so insertion order is enumeration order). -/
abbrev EruMap := List (String × EruMapVal)

/-- A value stored in the client's cache.  The source cache is
`Map<string, any>`: it holds parsed JSON bodies for URL keys and the ERU
type mapping object under the `eru_type_mapping` key. -/
inductive CacheVal where
  | json (j : Json)
  | emap (m : EruMap)

/-- One cache entry: `{ data, timestamp }` (src/api/mcp.js:1393). -/
structure CacheEntry where
  data : CacheVal
  timestamp : Nat

/-- Mutable state of `IFRCAPIClient`: the cache map, the optional
`IFRC_API_TOKEN` environment value, and the log of issued upstream
requests (most recent first; instrumentation, not source state). -/
structure ClientState where
  cache : List (String × CacheEntry)
  token : Option String
  fetchLog : List String

/-- Outbound request headers (src/api/mcp.js:1380-1384). -/
structure ReqHeaders where
  authorization : String
  accept : String
  userAgent : String
deriving DecidableEq

/-- Outcome of one `fetch`: a parsed JSON body, a non-2xx response, or a
network/parse failure (the single rejected-promise case). -/
inductive FetchOutcome where
  | ok (data : Json)
  | httpErr (status : Nat) (statusText : String)
  | netErr (msg : String)

/-- The network oracle: what the upstream returns for a URL, headers and
an instant. -/
abbrev Net := String → ReqHeaders → Nat → FetchOutcome

/-- Source `this.cacheTimeout = 5 * 60 * 1000` (src/api/mcp.js:1365). -/
def cacheTimeout : Nat := 5 * 60 * 1000

/-- Model of `Map.get`: the cache has unique keys, lookup finds the entry. -/
def cacheGet (cache : List (String × CacheEntry)) (k : String) :
    Option CacheEntry :=
  match cache with
  | [] => none
  | (k', e) :: rest => if k' = k then some e else cacheGet rest k

/-- Model of `Map.set`: overwrite in place if the key exists, else append. -/
def cacheSet (cache : List (String × CacheEntry)) (k : String)
    (e : CacheEntry) : List (String × CacheEntry) :=
  match cache with
  | [] => [(k, e)]
  | (k', e') :: rest =>
    if k' = k then (k, e) :: rest else (k', e') :: cacheSet rest k e

/-- The headers built for every upstream request
(src/api/mcp.js:1378-1384): token from the environment or the demo
default. -/
def requestHeaders (token : Option String) : ReqHeaders :=
  ⟨"Token " ++ token.getD "abc123def456",
   "application/json",
   "IFRC-GO-Admin-MCP-Server/1.0.0"⟩

/-- The cache-miss path of `fetchWithCache` (src/api/mcp.js:1374-1397):
issue the request (recorded in `fetchLog`); on a 2xx response store the
parsed body and return it; on a non-2xx status or a transport failure
re-wrap the error and cache nothing. -/
def fetchFresh (net : Net) (st : ClientState) (now : Nat) (url : String) :
    Except String CacheVal × ClientState :=
  let st1 : ClientState := ⟨st.cache, st.token, url :: st.fetchLog⟩
  match net url (requestHeaders st.token) now with
  | .ok data =>
    (.ok (.json data),
     ⟨cacheSet st1.cache url ⟨.json data, now⟩, st1.token, st1.fetchLog⟩)
  | .httpErr status statusText =>
    (.error ("Failed to fetch data from IFRC API: HTTP " ++
      toString status ++ ": " ++ statusText), st1)
  | .netErr msg =>
    (.error ("Failed to fetch data from IFRC API: " ++ msg), st1)

/-- Source `fetchWithCache` (src/api/mcp.js:1368-1398): return the cached value
while `now - timestamp < cacheTimeout`, otherwise fall through to the
fresh fetch (the stale entry is ignored, never deleted). -/
def fetchWithCache (net : Net) (st : ClientState) (now : Nat)
    (url : String) : Except String CacheVal × ClientState :=
  match cacheGet st.cache url with
  | some cached =>
    if now - cached.timestamp < cacheTimeout then (.ok cached.data, st)
    else fetchFresh net st now url
  | none => fetchFresh net st now url

theorem cacheGet_cacheSet_self (cache : List (String × CacheEntry))
    (k : String) (e : CacheEntry) : cacheGet (cacheSet cache k e) k = some e := by
  induction cache with
  | nil => simp [cacheGet, cacheSet]
  | cons p rest ih =>
    by_cases h : p.1 = k
    · simp [cacheSet, cacheGet, h]
    · simp [cacheSet, cacheGet, h, ih]

theorem cacheGet_cacheSet_ne (cache : List (String × CacheEntry))
    (k k' : String) (e : CacheEntry) (h : k' ≠ k) :
    cacheGet (cacheSet cache k e) k' = cacheGet cache k' := by
  induction cache with
  | nil => simp [cacheGet, cacheSet, Ne.symm h]
  | cons p rest ih =>
    by_cases hp : p.1 = k
    · simp [cacheSet, cacheGet, hp, Ne.symm h]
    · simp [cacheSet, cacheGet, hp, ih]

/-- Every call to `fetchWithCache` either answers from a fresh cache
entry without touching the state, or runs the fresh-fetch path. -/
theorem fetchWithCache_cases (net : Net) (st : ClientState) (now : Nat)
    (url : String) :
    (∃ c, cacheGet st.cache url = some c ∧
      now - c.timestamp < cacheTimeout ∧
      fetchWithCache net st now url = (.ok c.data, st)) ∨
    fetchWithCache net st now url = fetchFresh net st now url := by
  unfold fetchWithCache
  cases hc : cacheGet st.cache url with
  | none => right; rfl
  | some c =>
    by_cases hfr : now - c.timestamp < cacheTimeout
    · left; exact ⟨c, rfl, hfr, by simp [hfr]⟩
    · right; simp [hfr]

/-- The fresh-fetch path always records exactly one more request. -/
theorem fetchFresh_log (net : Net) (st : ClientState) (now : Nat)
    (url : String) :
    (fetchFresh net st now url).2.fetchLog = url :: st.fetchLog := by
  unfold fetchFresh
  cases net url (requestHeaders st.token) now <;> rfl

/-- The fresh-fetch path leaves the cache untouched whenever it fails. -/
theorem fetchFresh_error_cache (net : Net) (st : ClientState) (now : Nat)
    (url : String) (msg : String) (st' : ClientState)
    (h : fetchFresh net st now url = (.error msg, st')) :
    st'.cache = st.cache := by
  unfold fetchFresh at h
  revert h
  cases net url (requestHeaders st.token) now <;> intro h
  · exact absurd (congrArg (fun p => p.1) h) (by simp)
  · have hc := congrArg (fun p => p.2.cache) h
    simpa using hc.symm
  · have hc := congrArg (fun p => p.2.cache) h
    simpa using hc.symm

/-- C1: Two invocations with the same effective arguments (hence the same
composed URL), the first starting from a state with no fresh cache entry
for that URL and completing successfully at `t0`, the second beginning at
`t1` less than the TTL after it, issue exactly one upstream fetch between
them: the first call performs the single fetch, the second is answered
from the cache with the same value, and the state (including the fetch
log) is unchanged by the second call. -/
theorem cache_second_call_within_ttl (net : Net) (st : ClientState)
    (t0 t1 : Nat) (url : String) (v : Json)
    (hmiss : ∀ e, cacheGet st.cache url = some e →
      cacheTimeout ≤ t0 - e.timestamp)
    (hok : net url (requestHeaders st.token) t0 = .ok v)
    (httl : t1 - t0 < cacheTimeout) :
    (fetchWithCache net st t0 url).1 = .ok (.json v) ∧
    (fetchWithCache net (fetchWithCache net st t0 url).2 t1 url).1
      = (fetchWithCache net st t0 url).1 ∧
    (fetchWithCache net (fetchWithCache net st t0 url).2 t1 url).2
      = (fetchWithCache net st t0 url).2 ∧
    (fetchWithCache net st t0 url).2.fetchLog = url :: st.fetchLog := by
  have hfresh : fetchWithCache net st t0 url = fetchFresh net st t0 url := by
    unfold fetchWithCache
    cases hc : cacheGet st.cache url with
    | none => rfl
    | some e =>
      have := hmiss e hc
      simp [Nat.not_lt.mpr this]
  have hcall : fetchWithCache net st t0 url =
      (.ok (.json v),
       ⟨cacheSet st.cache url ⟨.json v, t0⟩, st.token, url :: st.fetchLog⟩) := by
    rw [hfresh]; unfold fetchFresh; rw [hok]
  refine ⟨by rw [hcall], ?_, ?_, by rw [hcall]⟩ <;>
  · rw [hcall]
    unfold fetchWithCache
    simp [cacheGet_cacheSet_self, httl]

/-- Closed instance of `cache_second_call_within_ttl`: empty cache, a
network returning `7` for the URL, second call one millisecond later. -/
theorem cache_second_call_within_ttl_witness :
    (fetchWithCache (fun _ _ _ => .ok (.num 7)) ⟨[], none, []⟩ 0 "u").1
        = .ok (.json (.num 7)) ∧
    (fetchWithCache (fun _ _ _ => .ok (.num 7))
        (fetchWithCache (fun _ _ _ => .ok (.num 7)) ⟨[], none, []⟩ 0 "u").2
        1 "u").1
      = (fetchWithCache (fun _ _ _ => .ok (.num 7)) ⟨[], none, []⟩ 0 "u").1 ∧
    (fetchWithCache (fun _ _ _ => .ok (.num 7))
        (fetchWithCache (fun _ _ _ => .ok (.num 7)) ⟨[], none, []⟩ 0 "u").2
        1 "u").2
      = (fetchWithCache (fun _ _ _ => .ok (.num 7)) ⟨[], none, []⟩ 0 "u").2 ∧
    (fetchWithCache (fun _ _ _ => .ok (.num 7)) ⟨[], none, []⟩ 0 "u").2.fetchLog
      = "u" :: ([] : List String) :=
  cache_second_call_within_ttl (fun _ _ _ => .ok (.num 7)) ⟨[], none, []⟩
    0 1 "u" (.num 7)
    (fun e he => by simp [cacheGet] at he) rfl (by decide)

/-- C6: no negative caching.  Whenever `fetchWithCache` returns an error
(non-2xx status, network failure, parse failure — every failing branch of
the try block), the cache is exactly what it was before the call: nothing
is added or overwritten for the key. -/
theorem failed_fetch_not_cached (net : Net) (st : ClientState) (now : Nat)
    (url : String) (msg : String) (st' : ClientState)
    (h : fetchWithCache net st now url = (.error msg, st')) :
    st'.cache = st.cache := by
  rcases fetchWithCache_cases net st now url with ⟨c, -, -, heq⟩ | heq
  · rw [heq] at h
    exact absurd (congrArg (fun p => p.1) h) (by simp)
  · rw [heq] at h
    exact fetchFresh_error_cache net st now url msg st' h

/-- Closed instance of `failed_fetch_not_cached`: a 404 from the upstream
leaves the (empty) cache empty. -/
theorem failed_fetch_not_cached_witness :
    (fetchWithCache (fun _ _ _ => .httpErr 404 "Not Found")
        ⟨[], none, []⟩ 0 "u").2.cache = ([] : List (String × CacheEntry)) :=
  failed_fetch_not_cached (fun _ _ _ => .httpErr 404 "Not Found")
    ⟨[], none, []⟩ 0 "u"
    "Failed to fetch data from IFRC API: HTTP 404: Not Found"
    (fetchWithCache (fun _ _ _ => .httpErr 404 "Not Found")
      ⟨[], none, []⟩ 0 "u").2 rfl

/-- C7: an entry whose age has reached the TTL is treated exactly as an
absent entry — the call runs the fresh-fetch path (so an upstream request
is issued) — and it is lazily ignored rather than removed: if the fresh
fetch fails, the stale entry is still in the cache afterwards. -/
theorem expired_entry_refetched (net : Net) (st : ClientState) (now : Nat)
    (url : String) (e : CacheEntry)
    (hent : cacheGet st.cache url = some e)
    (hexp : cacheTimeout ≤ now - e.timestamp) :
    fetchWithCache net st now url = fetchFresh net st now url ∧
    (fetchWithCache net st now url).2.fetchLog = url :: st.fetchLog ∧
    ∀ msg st', fetchWithCache net st now url = (.error msg, st') →
      cacheGet st'.cache url = some e := by
  have hfresh : fetchWithCache net st now url = fetchFresh net st now url := by
    rcases fetchWithCache_cases net st now url with ⟨c, hc, hfr, -⟩ | heq
    · rw [hent] at hc
      cases hc
      exact absurd hfr (Nat.not_lt.mpr hexp)
    · exact heq
  refine ⟨hfresh, ?_, ?_⟩
  · rw [hfresh]
    exact fetchFresh_log net st now url
  · intro msg st' h
    rw [hfresh] at h
    have := fetchFresh_error_cache net st now url msg st' h
    rw [this, hent]

/-- Closed instance of `expired_entry_refetched`: an entry written at time
0 queried at exactly the TTL with a failing network — the fresh path runs,
the request is logged, and the stale entry survives the failure. -/
theorem expired_entry_refetched_witness :
    fetchWithCache (fun _ _ _ => .netErr "boom")
        ⟨[("u", ⟨.json (.num 1), 0⟩)], none, []⟩ cacheTimeout "u"
      = fetchFresh (fun _ _ _ => .netErr "boom")
        ⟨[("u", ⟨.json (.num 1), 0⟩)], none, []⟩ cacheTimeout "u" ∧
    (fetchWithCache (fun _ _ _ => .netErr "boom")
        ⟨[("u", ⟨.json (.num 1), 0⟩)], none, []⟩ cacheTimeout "u").2.fetchLog
      = "u" :: ([] : List String) ∧
    ∀ msg st', fetchWithCache (fun _ _ _ => .netErr "boom")
        ⟨[("u", ⟨.json (.num 1), 0⟩)], none, []⟩ cacheTimeout "u"
        = (.error msg, st') →
      cacheGet st'.cache "u" = some ⟨.json (.num 1), 0⟩ :=
  expired_entry_refetched (fun _ _ _ => .netErr "boom")
    ⟨[("u", ⟨.json (.num 1), 0⟩)], none, []⟩ cacheTimeout "u"
    ⟨.json (.num 1), 0⟩ (by simp [cacheGet]) (by simp)

/-- Source `this.baseUrl` (src/api/mcp.js:1363). -/
def baseUrl : String := "https://goadmin.ifrc.org/api/v2"

/-- URL of `getCompletedDrefs` (src/api/mcp.js:1401). -/
def getCompletedDrefsUrl (limit offset : Int) : String :=
  baseUrl ++ "/completed_dref/?limit=" ++ toString limit ++
    "&offset=" ++ toString offset

/-- URL of `getOngoingDrefs` (src/api/mcp.js:1406). -/
def getOngoingDrefsUrl (limit offset : Int) : String :=
  baseUrl ++ "/dref/?limit=" ++ toString limit ++
    "&offset=" ++ toString offset

/-- URL of `getAppeals` (src/api/mcp.js:1411). -/
def getAppealsUrl (limit offset : Int) : String :=
  baseUrl ++ "/appeal/?limit=" ++ toString limit ++
    "&offset=" ++ toString offset

/-- URL of `getEmergencies` (src/api/mcp.js:1416). -/
def getEmergenciesUrl (limit offset : Int) : String :=
  baseUrl ++ "/event/?limit=" ++ toString limit ++
    "&offset=" ++ toString offset

/-- Source `getCompletedDrefs` (src/api/mcp.js:1400-1403). -/
def getCompletedDrefs (net : Net) (st : ClientState) (now : Nat)
    (limit offset : Int) : Except String CacheVal × ClientState :=
  fetchWithCache net st now (getCompletedDrefsUrl limit offset)

/-- Source `getOngoingDrefs` (src/api/mcp.js:1405-1408). -/
def getOngoingDrefs (net : Net) (st : ClientState) (now : Nat)
    (limit offset : Int) : Except String CacheVal × ClientState :=
  fetchWithCache net st now (getOngoingDrefsUrl limit offset)

/-- Source `getAppeals` (src/api/mcp.js:1410-1413). -/
def getAppeals (net : Net) (st : ClientState) (now : Nat)
    (limit offset : Int) : Except String CacheVal × ClientState :=
  fetchWithCache net st now (getAppealsUrl limit offset)

/-- Source `getEmergencies` (src/api/mcp.js:1415-1418). -/
def getEmergencies (net : Net) (st : ClientState) (now : Nat)
    (limit offset : Int) : Except String CacheVal × ClientState :=
  fetchWithCache net st now (getEmergenciesUrl limit offset)

/-- A DREF record as consumed by `getDrefStatistics`: only the two amount
fields matter; `none` models a missing or `null` property (JavaScript
`op.amount_requested || 0` turns both, as well as an explicit `0`, into
`0`). -/
structure DrefRecord where
  amount_requested : Option Int
  amount_funded : Option Int
deriving DecidableEq

/-- A listing response as consumed by `getDrefStatistics`: the `results`
array. -/
structure ListingResponse where
  results : List DrefRecord
deriving DecidableEq

/-- The statistics object returned by `getDrefStatistics`
(src/api/mcp.js:1439-1444). -/
structure DrefStats where
  total_operations : Nat
  total_requested : Int
  total_funded : Int
  active_operations : Nat
deriving DecidableEq

/-- The reduction step of `getDrefStatistics` (src/api/mcp.js:1437-1444):
concatenate both result arrays, count them, sum the two amount fields
with `|| 0` defaulting, count the ongoing results. -/
def getDrefStatisticsCore (completed ongoing : ListingResponse) :
    DrefStats :=
  let allOperations := completed.results ++ ongoing.results
  ⟨allOperations.length,
   allOperations.foldl (fun sum op => sum + op.amount_requested.getD 0) 0,
   allOperations.foldl (fun sum op => sum + op.amount_funded.getD 0) 0,
   ongoing.results.length⟩

/-- Property lookup in a JSON object. -/
def jlookup (fields : List (String × Json)) (k : String) : Option Json :=
  match fields with
  | [] => none
  | (k', v) :: rest => if k' = k then some v else jlookup rest k

/-- Reading one record of a `results` array: a numeric amount property is
kept, anything else (missing, `null`, other types) is absorbed by the
`|| 0` defaulting downstream and modelled as `none`. -/
def decodeRecord (j : Json) : DrefRecord :=
  match j with
  | .obj f =>
    ⟨(match jlookup f "amount_requested" with
      | some (.num n) => some n
      | _ => none),
     (match jlookup f "amount_funded" with
      | some (.num n) => some n
      | _ => none)⟩
  | _ => ⟨none, none⟩

/-- Reading a listing body: `completed.results` must be an array or the
spread `[...completed.results]` throws (modelled as decode failure). -/
def decodeListing (v : CacheVal) : Option ListingResponse :=
  match v with
  | .json (.obj fields) =>
    match jlookup fields "results" with
    | some (.arr xs) => some ⟨xs.map decodeRecord⟩
    | _ => none
  | _ => none

/-- Source `getDrefStatistics` (src/api/mcp.js:1430-1448).  The source launches
both fetches with `Promise.all` and joins; the embedding runs them in
sequence (completed then ongoing), which yields the same value and cache
for every oracle since the two requests are independent.  A failure of
either fetch, or a body without a `results` array (a `TypeError` in the
source), is re-wrapped with the `Failed to calculate DREF statistics:`
prefix by the surrounding catch. -/
def getDrefStatistics (net : Net) (st : ClientState) (now : Nat) :
    Except String DrefStats × ClientState :=
  match getCompletedDrefs net st now 1000 0 with
  | (.error e, st1) =>
    (.error ("Failed to calculate DREF statistics: " ++ e), st1)
  | (.ok cv, st1) =>
    match getOngoingDrefs net st1 now 1000 0 with
    | (.error e, st2) =>
      (.error ("Failed to calculate DREF statistics: " ++ e), st2)
    | (.ok ov, st2) =>
      match decodeListing cv, decodeListing ov with
      | some c, some o => (.ok (getDrefStatisticsCore c o), st2)
      | _, _ =>
        (.error ("Failed to calculate DREF statistics: " ++
          "Unknown error"), st2)

theorem foldl_add_getD {α : Type} (l : List α) (f : α → Int) (a : Int) :
    l.foldl (fun sum x => sum + f x) a = a + (l.map f).sum := by
  induction l generalizing a with
  | nil => simp
  | cons x xs ih =>
    simp only [List.foldl_cons, List.map_cons, List.sum_cons, ih]
    ring

/-- C3: the statistics reduction counts completed plus ongoing results,
sums `amount_requested` and `amount_funded` over all records with missing
amounts counted as `0`, and counts the ongoing results as active; the
spec's concrete example evaluates as stated; and whenever both fetches
succeed with decodable listing bodies, `getDrefStatistics` returns
exactly this reduction of them. -/
theorem dref_statistics_spec :
    (∀ completed ongoing : ListingResponse,
      (getDrefStatisticsCore completed ongoing).total_operations
          = completed.results.length + ongoing.results.length ∧
      (getDrefStatisticsCore completed ongoing).total_requested
          = ((completed.results ++ ongoing.results).map
              (fun op => op.amount_requested.getD 0)).sum ∧
      (getDrefStatisticsCore completed ongoing).total_funded
          = ((completed.results ++ ongoing.results).map
              (fun op => op.amount_funded.getD 0)).sum ∧
      (getDrefStatisticsCore completed ongoing).active_operations
          = ongoing.results.length) ∧
    getDrefStatisticsCore ⟨[⟨some 100, some 50⟩]⟩ ⟨[⟨some 200, some 200⟩]⟩
      = ⟨2, 300, 250, 1⟩ ∧
    (∀ (net : Net) (st : ClientState) (now : Nat)
      (cv ov : CacheVal) (st1 st2 : ClientState)
      (c o : ListingResponse),
      getCompletedDrefs net st now 1000 0 = (.ok cv, st1) →
      decodeListing cv = some c →
      getOngoingDrefs net st1 now 1000 0 = (.ok ov, st2) →
      decodeListing ov = some o →
      getDrefStatistics net st now = (.ok (getDrefStatisticsCore c o), st2)) := by
  refine ⟨?_, by decide, ?_⟩
  · intro completed ongoing
    refine ⟨by simp [getDrefStatisticsCore], ?_, ?_, by simp [getDrefStatisticsCore]⟩ <;>
      simp [getDrefStatisticsCore, foldl_add_getD]
  · intro net st now cv ov st1 st2 c o h1 hc h2 ho
    unfold getDrefStatistics
    simp [h1, h2, hc, ho]

/-- Concrete response body for the completed-DREF listing used by the
statistics example. -/
def completedBody : Json :=
  .obj [("results", .arr [.obj [("amount_requested", .num 100),
    ("amount_funded", .num 50)]])]

/-- Concrete response body for the ongoing-DREF listing used by the
statistics example. -/
def ongoingBody : Json :=
  .obj [("results", .arr [.obj [("amount_requested", .num 200),
    ("amount_funded", .num 200)]])]

/-- Oracle serving the two listing bodies of the statistics example. -/
def drefStatsNet : Net := fun url _ _ =>
  if url = getCompletedDrefsUrl 1000 0 then .ok completedBody
  else if url = getOngoingDrefsUrl 1000 0 then .ok ongoingBody
  else .netErr "unreachable"

/-- Closed instance of `dref_statistics_spec`: the spec's concrete
example run through the whole pipeline. -/
theorem dref_statistics_spec_witness :
    (getDrefStatistics drefStatsNet ⟨[], none, []⟩ 0).1
      = .ok ⟨2, 300, 250, 1⟩ := by
  have h := dref_statistics_spec.2.2 drefStatsNet ⟨[], none, []⟩ 0
    (.json completedBody) (.json ongoingBody) _ _
    ⟨[⟨some 100, some 50⟩]⟩ ⟨[⟨some 200, some 200⟩]⟩ rfl rfl rfl rfl
  rw [h]
  rfl

/-- Model of `a.join(sep)` of JavaScript arrays (used for `Object.keys(...).join`
in the unknown-ERU-type message). -/
def jsJoin (sep : String) : List String → String
  | [] => ""
  | [x] => x
  | x :: y :: r => x ++ sep ++ jsJoin sep (y :: r)

/-- Escaping of one character inside a JSON string literal. -/
def jsonEscapeChar (c : Char) : String :=
  if c = '\x22' then "\\\x22"
  else if c = '\\' then "\\\\"
  else if c = '\n' then "\\n"
  else if c = '\t' then "\\t"
  else if c = '\r' then "\\r"
  else String.singleton c

/-- Escaping of a JSON string literal body. -/
def jsonEscape (s : String) : String :=
  s.data.foldl (fun acc c => acc ++ jsonEscapeChar c) ""

mutual

/-- Model of `JSON.stringify(·, null, 2)` as used for every success payload.  The
claims only depend on the text block being the serialization of the
payload, not on its whitespace, so the embedding renders compactly. -/
def jsonStringify : Json → String
  | .null => "null"
  | .bool true => "true"
  | .bool false => "false"
  | .num n => toString n
  | .str s => "\x22" ++ jsonEscape s ++ "\x22"
  | .arr xs => "[" ++ jsonStringifyList xs ++ "]"
  | .obj fs => "\x7b" ++ jsonStringifyFields fs ++ "\x7d"

/-- Serialization of an array body. -/
def jsonStringifyList : List Json → String
  | [] => ""
  | [x] => jsonStringify x
  | x :: y :: r => jsonStringify x ++ "," ++ jsonStringifyList (y :: r)

/-- Serialization of an object body. -/
def jsonStringifyFields : List (String × Json) → String
  | [] => ""
  | [(k, v)] => "\x22" ++ jsonEscape k ++ "\x22:" ++ jsonStringify v
  | (k, v) :: y :: r =>
    "\x22" ++ jsonEscape k ++ "\x22:" ++ jsonStringify v ++ "," ++
      jsonStringifyFields (y :: r)

end

/-- Rendering the `_reverse` table as JSON (object keyed by the numeric
ids). -/
def eruTableJson (rm : List (Int × String)) : Json :=
  .obj (rm.map (fun p => (toString p.1, .str p.2)))

/-- Rendering an ERU mapping value as JSON. -/
def eruMapValJson : EruMapVal → Json
  | .key k => .num k
  | .table rm => eruTableJson rm

/-- Rendering the whole ERU mapping object as JSON. -/
def eruMapJson (m : EruMap) : Json :=
  .obj (m.map (fun p => (p.1, eruMapValJson p.2)))

/-- Model of `JSON.stringify` of any cached value. -/
def stringifyVal : CacheVal → String
  | .json j => jsonStringify j
  | .emap m => jsonStringify (eruMapJson m)

/-- One content block of a tool result:
`{ type: 'text', text: ... }`. -/
structure ContentBlock where
  type : String
  text : String
deriving DecidableEq

/-- The result envelope `{ content, isError }`.  The source builds
success envelopes without an `isError` property; an absent boolean
property is read as `false` by the protocol and is modelled as
`isError := false`. -/
structure ToolResult where
  content : List ContentBlock
  isError : Bool
deriving DecidableEq

/-- The zod schema of `get_completed_drefs`'s `limit`
(src/api/mcp.js:1647): `z.number().int().min(1).max(1000)` with default
50 when absent.  The concrete zod message text is abstracted. -/
def parseLimit (arg : Option Int) : Except String Int :=
  match arg with
  | none => .ok 50
  | some v => if 1 ≤ v ∧ v ≤ 1000 then .ok v else .error "limit out of range"

/-- The zod schema of `get_completed_drefs`'s `offset`
(src/api/mcp.js:1648): `z.number().int().min(0)` with default 0. -/
def parseOffset (arg : Option Int) : Except String Int :=
  match arg with
  | none => .ok 0
  | some v => if 0 ≤ v then .ok v else .error "offset out of range"

/-- Outcome of one zod-validated tool invocation: either the handler ran
and produced an envelope and a client state, or validation rejected the
arguments before the handler (so the client state is returned untouched
and no fetch was issued). -/
inductive HandlerOutcome where
  | result (r : ToolResult) (st : ClientState)
  | invalidArgs (msg : String) (st : ClientState)

/-- The per-tool handler body shared by every registration in
src/api/mcp.js (e.g. lines 1650-1673): await the client call, wrap a
success as a single pretty-printed text block, wrap a caught error as a
single `Error: ...` text block with `isError: true`. -/
def mcpEnvelope (p : Except String CacheVal × ClientState) :
    HandlerOutcome :=
  match p with
  | (.ok data, st) => .result ⟨[⟨"text", stringifyVal data⟩], false⟩ st
  | (.error e, st) => .result ⟨[⟨"text", "Error: " ++ e⟩], true⟩ st

/-- The `get_completed_drefs` tool of the zod-registered server
(src/api/mcp.js:1643-1674): validate `limit`/`offset` against the schema
(rejection happens before the handler runs), then fetch and wrap. -/
def mcpToolGetCompletedDrefs (net : Net) (st : ClientState) (now : Nat)
    (limitArg offsetArg : Option Int) : HandlerOutcome :=
  match parseLimit limitArg with
  | .error e => .invalidArgs e st
  | .ok limit =>
    match parseOffset offsetArg with
    | .error e => .invalidArgs e st
    | .ok offset =>
      mcpEnvelope (fetchWithCache net st now (getCompletedDrefsUrl limit offset))

/-- C4: for in-range `limit` and `offset` the constructed URL of each
listing operation contains exactly `limit=<limit>&offset=<offset>`
verbatim, and the zod-validated call reaches the fetch on exactly that
URL; for `limit` out of `[1, 1000]` the call is rejected by validation
with the client state untouched — in particular no fetch is issued. -/
theorem listing_limit_validation (limit offset : Int) :
    (1 ≤ limit → limit ≤ 1000 → 0 ≤ offset →
      (∃ a, getCompletedDrefsUrl limit offset
        = a ++ ("limit=" ++ toString limit ++ "&offset=" ++ toString offset)) ∧
      (∃ a, getOngoingDrefsUrl limit offset
        = a ++ ("limit=" ++ toString limit ++ "&offset=" ++ toString offset)) ∧
      (∃ a, getAppealsUrl limit offset
        = a ++ ("limit=" ++ toString limit ++ "&offset=" ++ toString offset)) ∧
      (∃ a, getEmergenciesUrl limit offset
        = a ++ ("limit=" ++ toString limit ++ "&offset=" ++ toString offset)) ∧
      ∀ (net : Net) (st : ClientState) (now : Nat),
        mcpToolGetCompletedDrefs net st now (some limit) (some offset)
          = mcpEnvelope (fetchWithCache net st now
              (getCompletedDrefsUrl limit offset))) ∧
    (limit < 1 ∨ 1000 < limit →
      ∀ (net : Net) (st : ClientState) (now : Nat) (offsetArg : Option Int),
        mcpToolGetCompletedDrefs net st now (some limit) offsetArg
          = .invalidArgs "limit out of range" st) := by
  constructor
  · intro h1 h2 h3
    refine ⟨?_, ?_, ?_, ?_, ?_⟩
    · exact ⟨baseUrl ++ "/completed_dref/?", by
        simp [getCompletedDrefsUrl, String.ext_iff]⟩
    · exact ⟨baseUrl ++ "/dref/?", by
        simp [getOngoingDrefsUrl, String.ext_iff]⟩
    · exact ⟨baseUrl ++ "/appeal/?", by
        simp [getAppealsUrl, String.ext_iff]⟩
    · exact ⟨baseUrl ++ "/event/?", by
        simp [getEmergenciesUrl, String.ext_iff]⟩
    · intro net st now
      simp [mcpToolGetCompletedDrefs, parseLimit, parseOffset, h1, h2, h3]
  · intro hbad net st now offsetArg
    have hn : ¬(1 ≤ limit ∧ limit ≤ 1000) := by omega
    simp [mcpToolGetCompletedDrefs, parseLimit, hn]

/-- Closed instance of `listing_limit_validation`: `limit=5, offset=7`
builds the verbatim URL and reaches the fetch; `limit=2000` is rejected
before any fetch. -/
theorem listing_limit_validation_witness :
    (∃ a, getCompletedDrefsUrl 5 7
      = a ++ ("limit=" ++ toString (5 : Int) ++ "&offset=" ++ toString (7 : Int))) ∧
    mcpToolGetCompletedDrefs (fun _ _ _ => .ok .null) ⟨[], none, []⟩ 0
        (some 5) (some 7)
      = mcpEnvelope (fetchWithCache (fun _ _ _ => .ok .null) ⟨[], none, []⟩ 0
          (getCompletedDrefsUrl 5 7)) ∧
    mcpToolGetCompletedDrefs (fun _ _ _ => .ok .null) ⟨[], none, []⟩ 0
        (some 2000) (some 0)
      = .invalidArgs "limit out of range" ⟨[], none, []⟩ :=
  ⟨((listing_limit_validation 5 7).1 (by decide) (by decide) (by decide)).1,
   ((listing_limit_validation 5 7).1 (by decide) (by decide) (by decide)).2.2.2.2
     (fun _ _ _ => .ok .null) ⟨[], none, []⟩ 0,
   (listing_limit_validation 2000 0).2 (by decide)
     (fun _ _ _ => .ok .null) ⟨[], none, []⟩ 0 (some 0)⟩

/-- Uppercase hexadecimal digit. -/
def hexDigit (n : Nat) : Char :=
  if n < 10 then Char.ofNat (48 + n) else Char.ofNat (55 + n)

/-- UTF-8 bytes of a code point, as `Nat`s. -/
def utf8Bytes (n : Nat) : List Nat :=
  if n < 128 then [n]
  else if n < 2048 then [192 + n / 64, 128 + n % 64]
  else if n < 65536 then
    [224 + n / 4096, 128 + (n / 64) % 64, 128 + n % 64]
  else
    [240 + n / 262144, 128 + (n / 4096) % 64, 128 + (n / 64) % 64,
     128 + n % 64]

/-- Percent-encoding of one byte. -/
def percentByte (b : Nat) : String :=
  "%" ++ String.singleton (hexDigit (b / 16)) ++
    String.singleton (hexDigit (b % 16))

/-- Characters `encodeURIComponent` leaves unescaped. -/
def uriUnreserved (c : Char) : Bool :=
  c.isAlphanum || ['-', '_', '.', '!', '~', '*', '(', ')'].contains c ||
    c = Char.ofNat 39

/-- JavaScript's `encodeURIComponent` (used for the disaster-type query
parameter). -/
def encodeURIComponent (s : String) : String :=
  s.data.foldl
    (fun acc c =>
      acc ++ (if uriUnreserved c then String.singleton c
        else String.join ((utf8Bytes c.toNat).map percentByte)))
    ""

/-- URL of `searchDrefsByCountry` (src/api/mcp.js:1421). -/
def searchDrefsByCountryUrl (countryIso : String) (limit : Int) : String :=
  baseUrl ++ "/dref/?country__iso=" ++ countryIso ++ "&limit=" ++
    toString limit

/-- URL of `searchDrefsByDisasterType` (src/api/mcp.js:1426). -/
def searchDrefsByDisasterTypeUrl (disasterType : String) (limit : Int) :
    String :=
  baseUrl ++ "/dref/?disaster_type__name__icontains=" ++
    encodeURIComponent disasterType ++ "&limit=" ++ toString limit

/-- Source `searchDrefsByCountry` (src/api/mcp.js:1420-1423). -/
def searchDrefsByCountry (net : Net) (st : ClientState) (now : Nat)
    (countryIso : String) (limit : Int) :
    Except String CacheVal × ClientState :=
  fetchWithCache net st now (searchDrefsByCountryUrl countryIso limit)

/-- Source `searchDrefsByDisasterType` (src/api/mcp.js:1425-1428). -/
def searchDrefsByDisasterType (net : Net) (st : ClientState) (now : Nat)
    (disasterType : String) (limit : Int) :
    Except String CacheVal × ClientState :=
  fetchWithCache net st now (searchDrefsByDisasterTypeUrl disasterType limit)

/-- One tool descriptor of the stdio server's registry: name and
description (the parameter schemas are purely declarative there and play
no role in dispatch). -/
structure ToolDecl where
  name : String
  description : String
deriving DecidableEq

/-- The `tools` constant of src/src/index.ts:149-272. -/
def stdioTools : List ToolDecl :=
  [⟨"get_completed_drefs",
    "Retrieve completed DREF (Disaster Relief Emergency Fund) operations"⟩,
   ⟨"get_ongoing_drefs", "Get currently active DREF operations"⟩,
   ⟨"get_appeals", "Access humanitarian appeals for funding"⟩,
   ⟨"get_emergencies", "Query emergency events and disasters"⟩,
   ⟨"search_drefs_by_country", "Find DREF operations by country ISO code"⟩,
   ⟨"search_drefs_by_disaster_type",
    "Search DREF operations by disaster type (flood, earthquake, cyclone, etc.)"⟩,
   ⟨"get_dref_statistics", "Get summary statistics about DREF operations"⟩]

/-- State of the stdio server: the tool registry and the API client. -/
structure ServerState where
  tools : List ToolDecl
  client : ClientState

/-- The argument object of a stdio tool call.  Fields the claims touch
are numeric or string; absent properties are `none`. -/
structure StdioArgs where
  limit : Option Int
  offset : Option Int
  country_iso : Option String
  disaster_type : Option String

/-- JavaScript `x || d` on an optional number: `undefined` and `0` are
falsy and give the default (src/src/index.ts:284-285). -/
def jsOrNum (v : Option Int) (d : Int) : Int :=
  match v with
  | none => d
  | some x => if x = 0 then d else x

/-- JavaScript `!s` on an optional string: `undefined` and the empty
string are falsy (the `if (!country_iso)` guard). -/
def jsFalsyStr (v : Option String) : Bool :=
  match v with
  | none => true
  | some s => s.isEmpty

/-- The value-or-throw part of the stdio `CallToolRequestSchema` handler
(src/src/index.ts:278-385): each `case` of the `switch` computed as an
`Except`, with every `throw` (unknown tool, missing required parameter,
client failure) on the error side.  `limit`/`offset` go through `|| 50`
and `|| 0` coercion; the two search tools use destructuring defaults
(`limit = 50` only when absent) and throw when the required string is
falsy.  The success envelopes and the single catch that the source wraps
around this switch are `wrapFetch` below. -/
def callToolCore (net : Net) (st : ClientState) (now : Nat) (name : String)
    (args : Option StdioArgs) : Except String CacheVal × ClientState :=
  if name = "get_completed_drefs" then
    getCompletedDrefs net st now (jsOrNum (args.bind StdioArgs.limit) 50)
      (jsOrNum (args.bind StdioArgs.offset) 0)
  else if name = "get_ongoing_drefs" then
    getOngoingDrefs net st now (jsOrNum (args.bind StdioArgs.limit) 50)
      (jsOrNum (args.bind StdioArgs.offset) 0)
  else if name = "get_appeals" then
    getAppeals net st now (jsOrNum (args.bind StdioArgs.limit) 50)
      (jsOrNum (args.bind StdioArgs.offset) 0)
  else if name = "get_emergencies" then
    getEmergencies net st now (jsOrNum (args.bind StdioArgs.limit) 50)
      (jsOrNum (args.bind StdioArgs.offset) 0)
  else if name = "search_drefs_by_country" then
    if jsFalsyStr (args.bind StdioArgs.country_iso) then
      (.error "country_iso parameter is required", st)
    else
      searchDrefsByCountry net st now
        ((args.bind StdioArgs.country_iso).getD "")
        ((args.bind StdioArgs.limit).getD 50)
  else if name = "search_drefs_by_disaster_type" then
    if jsFalsyStr (args.bind StdioArgs.disaster_type) then
      (.error "disaster_type parameter is required", st)
    else
      searchDrefsByDisasterType net st now
        ((args.bind StdioArgs.disaster_type).getD "")
        ((args.bind StdioArgs.limit).getD 50)
  else if name = "get_dref_statistics" then
    match getDrefStatistics net st now with
    | (.ok stats, st') =>
      (.ok (.json (.obj
        [("total_operations", .num stats.total_operations),
         ("total_requested", .num stats.total_requested),
         ("total_funded", .num stats.total_funded),
         ("active_operations", .num stats.active_operations)])), st')
    | (.error e, st') => (.error e, st')
  else (.error ("Unknown tool: " ++ name), st)

/-- The envelope layer of the stdio handler: each successful `case`
returns `{content: [{type:'text', text: JSON.stringify(result, null,
2)}]}` and the surrounding catch returns `{content: [{type:'text', text:
`Error: ...`}], isError: true}` (src/src/index.ts:286-296 and 386-396).
Factoring the switch as core-then-wrap is extensionally the source
handler: every case builds the identical success shape and all throws
reach the one catch. -/
def wrapFetch (p : Except String CacheVal × ClientState) :
    ToolResult × ClientState :=
  match p with
  | (.ok v, st) => (⟨[⟨"text", stringifyVal v⟩], false⟩, st)
  | (.error e, st) => (⟨[⟨"text", "Error: " ++ e⟩], true⟩, st)

/-- The stdio `CallToolRequestSchema` handler: run the switch, wrap the
outcome.  Only the client state can change; the registry is read-only. -/
def handleCallTool (net : Net) (ss : ServerState) (now : Nat)
    (name : String) (args : Option StdioArgs) : ToolResult × ServerState :=
  let p := wrapFetch (callToolCore net ss.client now name args)
  (p.1, ⟨ss.tools, p.2⟩)

theorem wrapFetch_shape (p : Except String CacheVal × ClientState) :
    ∃ s, (wrapFetch p).1.content = [⟨"text", s⟩] := by
  rcases p with ⟨r, st⟩
  cases r <;> simp [wrapFetch]

/-- C2: every outcome of a stdio tool call — validation failure, unknown
tool, upstream HTTP or transport failure, handler failure — is delivered
as a result envelope with exactly one text content block; the handler is
a total function into envelopes, so no raw exception reaches the
transport; every error of the underlying switch becomes `isError = true`
with the human-readable `Error: ...` message; an unregistered tool name
yields `isError = true` with a message naming the unknown tool; and the
tool registry is unchanged by every call. -/
theorem dispatcher_error_envelope (net : Net) (ss : ServerState)
    (now : Nat) (name : String) (args : Option StdioArgs) :
    (∃ s, (handleCallTool net ss now name args).1.content = [⟨"text", s⟩]) ∧
    (handleCallTool net ss now name args).2.tools = ss.tools ∧
    (∀ e st', callToolCore net ss.client now name args = (.error e, st') →
      handleCallTool net ss now name args
        = (⟨[⟨"text", "Error: " ++ e⟩], true⟩, ⟨ss.tools, st'⟩)) ∧
    (name ∉ stdioTools.map ToolDecl.name →
      handleCallTool net ss now name args
        = (⟨[⟨"text", "Error: Unknown tool: " ++ name⟩], true⟩,
           ⟨ss.tools, ss.client⟩)) := by
  refine ⟨?_, rfl, ?_, ?_⟩
  · exact wrapFetch_shape (callToolCore net ss.client now name args)
  · intro e st' h
    unfold handleCallTool
    rw [h]
    rfl
  · intro hname
    simp only [stdioTools, List.map_cons, List.map_nil, List.mem_cons,
      List.mem_singleton, List.not_mem_nil] at hname
    push_neg at hname
    obtain ⟨n1, n2, n3, n4, n5, n6, n7, -⟩ := hname
    have hcore : callToolCore net ss.client now name args
        = (.error ("Unknown tool: " ++ name), ss.client) := by
      unfold callToolCore
      rw [if_neg n1, if_neg n2, if_neg n3, if_neg n4, if_neg n5, if_neg n6,
        if_neg n7]
    unfold handleCallTool
    rw [hcore]
    rfl

/-- Closed instance of `dispatcher_error_envelope`: calling the
unregistered name `bogus_tool` yields the error envelope naming it and
leaves the registry intact. -/
theorem dispatcher_error_envelope_witness :
    handleCallTool (fun _ _ _ => .ok .null) ⟨stdioTools, ⟨[], none, []⟩⟩ 0
        "bogus_tool" none
      = (⟨[⟨"text", "Error: Unknown tool: bogus_tool"⟩], true⟩,
         ⟨stdioTools, ⟨[], none, []⟩⟩) ∧
    (handleCallTool (fun _ _ _ => .ok .null) ⟨stdioTools, ⟨[], none, []⟩⟩ 0
        "bogus_tool" none).2.tools = stdioTools :=
  ⟨(dispatcher_error_envelope (fun _ _ _ => .ok .null)
      ⟨stdioTools, ⟨[], none, []⟩⟩ 0 "bogus_tool" none).2.2.2 (by decide),
   (dispatcher_error_envelope (fun _ _ _ => .ok .null)
      ⟨stdioTools, ⟨[], none, []⟩⟩ 0 "bogus_tool" none).2.1⟩

/-- C8: whenever the underlying switch succeeds with payload `v`, the
stdio dispatcher returns the envelope with `isError = false` whose
content is exactly one text block holding the JSON serialization of
`v`. -/
theorem dispatcher_success_envelope (net : Net) (ss : ServerState)
    (now : Nat) (name : String) (args : Option StdioArgs) (v : CacheVal)
    (st' : ClientState)
    (h : callToolCore net ss.client now name args = (.ok v, st')) :
    handleCallTool net ss now name args
      = (⟨[⟨"text", stringifyVal v⟩], false⟩, ⟨ss.tools, st'⟩) := by
  unfold handleCallTool
  rw [h]
  rfl

/-- Closed instance of `dispatcher_success_envelope`: a successful
`get_completed_drefs` call returns the serialized payload in one text
block with `isError = false`. -/
theorem dispatcher_success_envelope_witness :
    handleCallTool (fun _ _ _ => .ok (.num 7))
        ⟨stdioTools, ⟨[], none, []⟩⟩ 0 "get_completed_drefs" none
      = (⟨[⟨"text", stringifyVal (.json (.num 7))⟩], false⟩,
         ⟨stdioTools,
          ⟨[(getCompletedDrefsUrl 50 0, ⟨.json (.num 7), 0⟩)], none,
           [getCompletedDrefsUrl 50 0]⟩⟩) :=
  dispatcher_success_envelope (fun _ _ _ => .ok (.num 7))
    ⟨stdioTools, ⟨[], none, []⟩⟩ 0 "get_completed_drefs" none
    (.json (.num 7))
    ⟨[(getCompletedDrefsUrl 50 0, ⟨.json (.num 7), 0⟩)], none,
     [getCompletedDrefsUrl 50 0]⟩ rfl

/-- C10: the stdio dispatcher applies `|| 50` / `|| 0` coercion to the
listing arguments before building the URL and never validates their
range: for every argument object, each of the four listing cases —
`get_completed_drefs`, `get_ongoing_drefs`, `get_appeals`,
`get_emergencies` — is exactly the fetch on the coerced URL, so an
explicit `limit: 0` is silently replaced by `50` (shown for each tool),
and an out-of-range `limit: 5000` is passed through verbatim to the URL
instead of raising a validation error. -/
theorem stdio_falsy_coercion (net : Net) (st : ClientState) (now : Nat) :
    (∀ args : Option StdioArgs,
      callToolCore net st now "get_completed_drefs" args
        = fetchWithCache net st now
            (getCompletedDrefsUrl (jsOrNum (args.bind StdioArgs.limit) 50)
              (jsOrNum (args.bind StdioArgs.offset) 0))) ∧
    (∀ args : Option StdioArgs,
      callToolCore net st now "get_ongoing_drefs" args
        = fetchWithCache net st now
            (getOngoingDrefsUrl (jsOrNum (args.bind StdioArgs.limit) 50)
              (jsOrNum (args.bind StdioArgs.offset) 0))) ∧
    (∀ args : Option StdioArgs,
      callToolCore net st now "get_appeals" args
        = fetchWithCache net st now
            (getAppealsUrl (jsOrNum (args.bind StdioArgs.limit) 50)
              (jsOrNum (args.bind StdioArgs.offset) 0))) ∧
    (∀ args : Option StdioArgs,
      callToolCore net st now "get_emergencies" args
        = fetchWithCache net st now
            (getEmergenciesUrl (jsOrNum (args.bind StdioArgs.limit) 50)
              (jsOrNum (args.bind StdioArgs.offset) 0))) ∧
    callToolCore net st now "get_completed_drefs"
        (some ⟨some 0, some 0, none, none⟩)
      = fetchWithCache net st now (getCompletedDrefsUrl 50 0) ∧
    callToolCore net st now "get_ongoing_drefs"
        (some ⟨some 0, some 0, none, none⟩)
      = fetchWithCache net st now (getOngoingDrefsUrl 50 0) ∧
    callToolCore net st now "get_appeals"
        (some ⟨some 0, some 0, none, none⟩)
      = fetchWithCache net st now (getAppealsUrl 50 0) ∧
    callToolCore net st now "get_emergencies"
        (some ⟨some 0, some 0, none, none⟩)
      = fetchWithCache net st now (getEmergenciesUrl 50 0) ∧
    callToolCore net st now "get_completed_drefs"
        (some ⟨some 5000, some 0, none, none⟩)
      = fetchWithCache net st now (getCompletedDrefsUrl 5000 0) := by
  refine ⟨?_, ?_, ?_, ?_, ?_, ?_, ?_, ?_, ?_⟩ <;>
    simp [callToolCore, getCompletedDrefs, getOngoingDrefs, getAppeals,
      getEmergencies, jsOrNum]

/-- One entry of the `/erutype/` catalogue: `{ key, label }`. -/
structure ERUTypeEntry where
  key : Int
  label : String
deriving DecidableEq

/-- ASCII lowercase of one character (`String.prototype.toLowerCase`;
the catalogue labels and tool inputs are ASCII). -/
def jsCharLower (c : Char) : Char :=
  if 'A' ≤ c ∧ c ≤ 'Z' then Char.ofNat (c.toNat + 32) else c

/-- Model of `s.toLowerCase()`. -/
def jsToLower (s : String) : String := ⟨s.data.map jsCharLower⟩

/-- Substring test on character lists. -/
def listContainsSub : List Char → List Char → Bool
  | n, [] => n.isEmpty
  | n, h :: t => n.isPrefixOf (h :: t) || listContainsSub n t

/-- Model of `s.includes(sub)`. -/
def jsIncludes (s sub : String) : Bool := listContainsSub sub.data s.data

/-- Lookup in an ERU mapping object (property read). -/
def mapLookup (m : EruMap) (k : String) : Option EruMapVal :=
  match m with
  | [] => none
  | (k', v) :: rest => if k' = k then some v else mapLookup rest k

/-- Property assignment on an ERU mapping object: an existing key keeps
its position, a new key is appended (JavaScript property insertion
order). -/
def mapSet (m : EruMap) (k : String) (v : EruMapVal) : EruMap :=
  match m with
  | [] => [(k, v)]
  | (k', v') :: rest =>
    if k' = k then (k, v) :: rest else (k', v') :: mapSet rest k v

/-- Property assignment on the `_reverse` table. -/
def rmSet (rm : List (Int × String)) (k : Int) (v : String) :
    List (Int × String) :=
  match rm with
  | [] => [(k, v)]
  | (k', v') :: rest =>
    if k' = k then (k, v) :: rest else (k', v') :: rmSet rest k v

/-- JavaScript `existing || key` where `existing` is an absent property,
a number (falsy exactly when `0`), or the `_reverse` object (always
truthy). -/
def jsOrKey (existing : Option EruMapVal) (k : Int) : EruMapVal :=
  match existing with
  | none => .key k
  | some (.key v) => if v = 0 then .key k else .key v
  | some (.table t) => .table t

/-- The body of the `eruTypes.forEach` callback
(src/api/mcp.js:1601-1626): insert the lower-cased label, then the
substring-derived alias entries — `wash`, `it` and `telecom` keep an
existing truthy value (`mapping[k] = mapping[k] || type.key`), while
`logistics`, `relief`, `hospital` and `clinic` overwrite
unconditionally. -/
def processEruEntry (m : EruMap) (t : ERUTypeEntry) : EruMap :=
  let label := jsToLower t.label
  let m1 := mapSet m label (.key t.key)
  let m2 := if jsIncludes label "wash" then
      mapSet m1 "wash" (jsOrKey (mapLookup m1 "wash") t.key)
    else m1
  let m3 := if jsIncludes label "logistics" then
      mapSet m2 "logistics" (.key t.key)
    else m2
  let m4 := if jsIncludes label "relief" then
      mapSet m3 "relief" (.key t.key)
    else m3
  let m5 := if jsIncludes label "hospital" then
      mapSet m4 "hospital" (.key t.key)
    else m4
  let m6 := if jsIncludes label "clinic" then
      mapSet m5 "clinic" (.key t.key)
    else m5
  if jsIncludes label "telecom" || jsIncludes label "it" then
    let m7 := mapSet m6 "it" (jsOrKey (mapLookup m6 "it") t.key)
    mapSet m7 "telecom" (jsOrKey (mapLookup m7 "telecom") t.key)
  else m6

/-- Building the mapping and reverse mapping from the fetched catalogue
(src/api/mcp.js:1598-1628): one pass over the entries, then the
`_reverse` property is appended. -/
def buildEruMapping (types : List ERUTypeEntry) : EruMap :=
  let built := types.foldl
    (fun acc t => (processEruEntry acc.1 t, rmSet acc.2 t.key t.label))
    (([], []) : EruMap × List (Int × String))
  mapSet built.1 "_reverse" (.table built.2)

/-- URL of `getERUTypes` (src/api/mcp.js:1583). -/
def eruTypesUrl : String := baseUrl ++ "/erutype/"

/-- Source `getERUTypes` (src/api/mcp.js:1582-1585). -/
def getERUTypes (net : Net) (st : ClientState) (now : Nat) :
    Except String CacheVal × ClientState :=
  fetchWithCache net st now eruTypesUrl

/-- Reading one catalogue entry: `type.label` must be a string (else the
`forEach` body throws) and `type.key` a number. -/
def decodeEruEntry (j : Json) : Option ERUTypeEntry :=
  match j with
  | .obj f =>
    match jlookup f "key", jlookup f "label" with
    | some (.num k), some (.str l) => some ⟨k, l⟩
    | _, _ => none
  | _ => none

/-- Reading the `/erutype/` body: an array of `{key, label}` entries; any
other shape throws inside the try of `getERUTypeMapping` (modelled as
decode failure). -/
def decodeEruCatalogue (v : CacheVal) : Option (List ERUTypeEntry) :=
  match v with
  | .json (.arr xs) => xs.mapM decodeEruEntry
  | _ => none

/-- The cache key of the derived mapping (src/api/mcp.js:1589). -/
def eruMappingCacheKey : String := "eru_type_mapping"

/-- The miss path of `getERUTypeMapping` (src/api/mcp.js:1596-1634):
fetch the catalogue, build the mapping, cache it under
`eru_type_mapping`, wrapping any failure with the
`Failed to fetch ERU type mapping:` prefix.  The concrete `TypeError`
text of a malformed catalogue is abstracted. -/
def getERUTypeMappingFresh (net : Net) (st : ClientState) (now : Nat) :
    Except String EruMap × ClientState :=
  match getERUTypes net st now with
  | (.error e, st1) =>
    (.error ("Failed to fetch ERU type mapping: " ++ e), st1)
  | (.ok v, st1) =>
    match decodeEruCatalogue v with
    | none =>
      (.error ("Failed to fetch ERU type mapping: " ++ "Unknown error"), st1)
    | some types =>
      let mapping := buildEruMapping types
      (.ok mapping,
       ⟨cacheSet st1.cache eruMappingCacheKey ⟨.emap mapping, now⟩,
        st1.token, st1.fetchLog⟩)

/-- Source `getERUTypeMapping` (src/api/mcp.js:1588-1635): serve the cached
mapping while fresh, else rebuild.  Only this function writes the
`eru_type_mapping` key (the key is not a URL), so a cached value there is
always a mapping; a foreign JSON value at this key — unreachable through
the source code paths — is reported as a failure. -/
def getERUTypeMapping (net : Net) (st : ClientState) (now : Nat) :
    Except String EruMap × ClientState :=
  match cacheGet st.cache eruMappingCacheKey with
  | some cached =>
    if now - cached.timestamp < cacheTimeout then
      match cached.data with
      | .emap m => (.ok m, st)
      | .json _ =>
        (.error ("Failed to fetch ERU type mapping: " ++ "Unknown error"), st)
    else getERUTypeMappingFresh net st now
  | none => getERUTypeMappingFresh net st now

/-- Whitespace stripped by `Number(...)` coercion. -/
def jsWs (c : Char) : Bool := c = ' ' || c = '\t' || c = '\n' || c = '\r'

/-- Both-ends whitespace trim. -/
def jsTrimChars (l : List Char) : List Char :=
  ((l.dropWhile jsWs).reverse.dropWhile jsWs).reverse

/-- Exponent suffix of a decimal literal (after the `e`/`E`). -/
def isExpSuffix (l : List Char) : Bool :=
  let body := match l with
    | c :: r => if c = '+' ∨ c = '-' then r else l
    | [] => l
  !body.isEmpty && body.all Char.isDigit

/-- What may follow the digits of a decimal literal. -/
def isExpTail (l : List Char) : Bool :=
  match l with
  | [] => true
  | 'e' :: r => isExpSuffix r
  | 'E' :: r => isExpSuffix r
  | _ => false

/-- An unsigned decimal literal body. -/
def isDecimalTail (l : List Char) : Bool :=
  let p := l.span Char.isDigit
  match p.2 with
  | '.' :: r =>
    let q := r.span Char.isDigit
    (!p.1.isEmpty || !q.1.isEmpty) && isExpTail q.2
  | rest => !p.1.isEmpty && isExpTail rest

/-- Whether `Number(s)` yields a number (so `isNaN(s)` is `false`):
trimmed-empty coerces to `0`, otherwise an optionally signed decimal
literal.  Hexadecimal/binary/octal and `Infinity` forms are not used by
any catalogue label or tool input and are not modelled. -/
def jsNumericStr (s : String) : Bool :=
  let t := jsTrimChars s.data
  if t.isEmpty then true
  else
    isDecimalTail
      (match t with
       | c :: r => if c = '+' ∨ c = '-' then r else t
       | [] => t)

/-- JavaScript `isNaN(s)` on a string argument. -/
def jsIsNaNStr (s : String) : Bool := !jsNumericStr s

/-- The `eru_type` argument: the zod schema
`z.union([z.string().min(1), z.number().int().min(0)])`
(src/api/mcp.js:2549). -/
inductive EruTypeArg where
  | str (s : String)
  | num (n : Int)

/-- URL of the ERU listing by type (src/api/mcp.js:1571), with the type
id rendered by template interpolation. -/
def eruListingUrl (typeStr : String) (limit : Int) : String :=
  baseUrl ++ "/eru/?type=" ++ typeStr ++ "&limit=" ++ toString limit

/-- Template interpolation of a resolved type id: a number prints its
decimal form, the `_reverse` object prints `[object Object]`. -/
def eruValToString : EruMapVal → String
  | .key k => toString k
  | .table _ => "[object Object]"

/-- The unknown-type error message (src/api/mcp.js:1567):
`Object.keys(typeMapping)` enumerates the mapping's keys in insertion
order (all are non-integer-like strings), joined by `', '`. -/
def unknownEruMsg (eruType : String) (m : EruMap) : String :=
  "Unknown ERU type: " ++ eruType ++ ". Available types: " ++
    jsJoin ", " (m.map Prod.fst)

/-- Source `getERUsByType` (src/api/mcp.js:1557-1573): a string that `isNaN`
rejects is resolved through the mapping by its lower-cased form —
`undefined` throws the unknown-type error before any listing fetch — and
every other argument (a number, or a numeric string) is interpolated
into the listing URL directly. -/
def getERUsByType (net : Net) (st : ClientState) (now : Nat)
    (eruType : EruTypeArg) (limit : Int) :
    Except String CacheVal × ClientState :=
  match eruType with
  | .num n => fetchWithCache net st now (eruListingUrl (toString n) limit)
  | .str s =>
    if jsIsNaNStr s then
      match getERUTypeMapping net st now with
      | (.error e, st1) => (.error e, st1)
      | (.ok mapping, st1) =>
        match mapLookup mapping (jsToLower s) with
        | none => (.error (unknownEruMsg s mapping), st1)
        | some tid =>
          fetchWithCache net st1 now (eruListingUrl (eruValToString tid) limit)
    else fetchWithCache net st now (eruListingUrl s limit)

/-- C9: a string `eru_type` that parses as a number bypasses the mapping
entirely — the call is exactly the listing fetch with the string
interpolated verbatim as the type id, so the catalogue is never fetched
and the unknown-type error is unreachable. -/
theorem eru_numeric_bypass (net : Net) (st : ClientState) (now : Nat)
    (s : String) (limit : Int) (h : jsIsNaNStr s = false) :
    getERUsByType net st now (.str s) limit
      = fetchWithCache net st now (eruListingUrl s limit) := by
  simp [getERUsByType, h]

/-- Closed instance of `eru_numeric_bypass` at `eru_type = "5"`. -/
theorem eru_numeric_bypass_witness :
    getERUsByType (fun _ _ _ => .ok (.arr [])) ⟨[], none, []⟩ 0
        (.str "5") 50
      = fetchWithCache (fun _ _ _ => .ok (.arr [])) ⟨[], none, []⟩ 0
          (eruListingUrl "5" 50) :=
  eru_numeric_bypass (fun _ _ _ => .ok (.arr [])) ⟨[], none, []⟩ 0
    "5" 50 (by decide)

theorem mapLookup_mapSet_self (m : EruMap) (k : String) (v : EruMapVal) :
    mapLookup (mapSet m k v) k = some v := by
  induction m with
  | nil => simp [mapLookup, mapSet]
  | cons p rest ih =>
    by_cases h : p.1 = k
    · simp [mapSet, mapLookup, h]
    · simp [mapSet, mapLookup, h, ih]

theorem mapLookup_mapSet_ne (m : EruMap) (k k' : String) (v : EruMapVal)
    (h : k' ≠ k) : mapLookup (mapSet m k v) k' = mapLookup m k' := by
  induction m with
  | nil => simp [mapLookup, mapSet, Ne.symm h]
  | cons p rest ih =>
    by_cases hp : p.1 = k
    · simp [mapSet, mapLookup, hp, Ne.symm h]
    · simp [mapSet, mapLookup, hp, ih]

theorem isPrefixOf_self_char (l : List Char) : l.isPrefixOf l = true := by
  induction l with
  | nil => rfl
  | cons a t ih => simp [List.isPrefixOf, ih]

theorem listContainsSub_self (l : List Char) : listContainsSub l l = true := by
  cases l with
  | nil => rfl
  | cons a t => simp [listContainsSub, isPrefixOf_self_char]

theorem jsIncludes_self (s : String) : jsIncludes s s = true :=
  listContainsSub_self s.data

/-- A single catalogue entry's effect on the `wash` alias: if the label
contains `wash` the alias is re-assigned through `|| type.key`, otherwise
only the plain label insertion can touch it. -/
theorem processEruEntry_wash_lookup (m : EruMap) (t : ERUTypeEntry) :
    mapLookup (processEruEntry m t) "wash"
      = (if jsIncludes (jsToLower t.label) "wash" then
          some (jsOrKey
            (mapLookup (mapSet m (jsToLower t.label) (.key t.key)) "wash")
            t.key)
        else mapLookup (mapSet m (jsToLower t.label) (.key t.key)) "wash") := by
  by_cases hw : jsIncludes (jsToLower t.label) "wash" = true <;>
  by_cases hl : jsIncludes (jsToLower t.label) "logistics" = true <;>
  by_cases hr : jsIncludes (jsToLower t.label) "relief" = true <;>
  by_cases hh : jsIncludes (jsToLower t.label) "hospital" = true <;>
  by_cases hc : jsIncludes (jsToLower t.label) "clinic" = true <;>
  by_cases ht : (jsIncludes (jsToLower t.label) "telecom"
    || jsIncludes (jsToLower t.label) "it") = true <;>
  simp [processEruEntry, hw, hl, hr, hh, hc, ht, mapLookup_mapSet_self,
    mapLookup_mapSet_ne]

theorem processEruEntry_wash_skip (m : EruMap) (t : ERUTypeEntry)
    (h : jsIncludes (jsToLower t.label) "wash" = false) :
    mapLookup (processEruEntry m t) "wash" = mapLookup m "wash" := by
  have hlab : jsToLower t.label ≠ "wash" := by
    intro heq
    rw [heq] at h
    simp [jsIncludes_self] at h
  rw [processEruEntry_wash_lookup, if_neg (by simp [h]),
    mapLookup_mapSet_ne _ _ _ _ (Ne.symm hlab)]

theorem processEruEntry_wash_first (m : EruMap) (t : ERUTypeEntry)
    (hnone : mapLookup m "wash" = none)
    (hinc : jsIncludes (jsToLower t.label) "wash" = true) :
    mapLookup (processEruEntry m t) "wash" = some (.key t.key) := by
  rw [processEruEntry_wash_lookup, if_pos hinc]
  by_cases heq : jsToLower t.label = "wash"
  · rw [heq, mapLookup_mapSet_self]
    by_cases hz : t.key = 0 <;> simp [jsOrKey, hz]
  · rw [mapLookup_mapSet_ne _ _ _ _ (Ne.symm heq), hnone]
    rfl

theorem processEruEntry_wash_keep (m : EruMap) (t : ERUTypeEntry) (k : Int)
    (hk : mapLookup m "wash" = some (.key k)) (hkz : k ≠ 0)
    (hlab : jsToLower t.label ≠ "wash") :
    mapLookup (processEruEntry m t) "wash" = some (.key k) := by
  rw [processEruEntry_wash_lookup]
  by_cases hinc : jsIncludes (jsToLower t.label) "wash" = true
  · rw [if_pos hinc, mapLookup_mapSet_ne _ _ _ _ (Ne.symm hlab), hk]
    simp [jsOrKey, hkz]
  · rw [if_neg hinc, mapLookup_mapSet_ne _ _ _ _ (Ne.symm hlab), hk]

theorem eruFoldFst (types : List ERUTypeEntry) (m : EruMap)
    (r : List (Int × String)) :
    (types.foldl
      (fun acc t => (processEruEntry acc.1 t, rmSet acc.2 t.key t.label))
      (m, r)).1
      = types.foldl processEruEntry m := by
  induction types generalizing m r with
  | nil => rfl
  | cons t ts ih => simp [List.foldl_cons, ih]

theorem foldl_wash_skip (pre : List ERUTypeEntry) (m : EruMap)
    (h : ∀ t ∈ pre, jsIncludes (jsToLower t.label) "wash" = false) :
    mapLookup (pre.foldl processEruEntry m) "wash" = mapLookup m "wash" := by
  induction pre generalizing m with
  | nil => rfl
  | cons t ts ih =>
    rw [List.foldl_cons, ih _ (fun x hx => h x (List.mem_cons_of_mem t hx)),
      processEruEntry_wash_skip m t (h t (List.mem_cons_self t ts))]

theorem foldl_wash_keep (post : List ERUTypeEntry) (m : EruMap) (k : Int)
    (hk : mapLookup m "wash" = some (.key k)) (hkz : k ≠ 0)
    (h : ∀ t ∈ post, jsToLower t.label ≠ "wash") :
    mapLookup (post.foldl processEruEntry m) "wash" = some (.key k) := by
  induction post generalizing m with
  | nil => exact hk
  | cons t ts ih =>
    rw [List.foldl_cons]
    exact ih _
      (processEruEntry_wash_keep m t k hk hkz (h t (List.mem_cons_self t ts)))
      (fun x hx => h x (List.mem_cons_of_mem t hx))

/-- The `wash` alias after the whole build: it holds the key of the first
wash-containing entry provided that key is truthy and no later entry's
lower-cased label is exactly `wash`. -/
theorem buildEruMapping_wash (pre : List ERUTypeEntry) (e0 : ERUTypeEntry)
    (post : List ERUTypeEntry)
    (hpre : ∀ t ∈ pre, jsIncludes (jsToLower t.label) "wash" = false)
    (hinc : jsIncludes (jsToLower e0.label) "wash" = true)
    (hkz : e0.key ≠ 0)
    (hpost : ∀ t ∈ post, jsToLower t.label ≠ "wash") :
    mapLookup (buildEruMapping (pre ++ e0 :: post)) "wash"
      = some (.key e0.key) := by
  simp only [buildEruMapping]
  rw [mapLookup_mapSet_ne _ _ _ _ (by decide), eruFoldFst,
    List.foldl_append, List.foldl_cons]
  exact foldl_wash_keep post _ e0.key
    (processEruEntry_wash_first _ e0
      (by rw [foldl_wash_skip pre _ hpre]; rfl) hinc)
    hkz hpost

theorem strData_append (a b : String) : (a ++ b).data = a.data ++ b.data :=
  rfl

theorem jsJoin_mem_decomp (sep k : String) (L : List String) (h : k ∈ L) :
    ∃ a b, jsJoin sep L = a ++ k ++ b := by
  induction L with
  | nil => cases h
  | cons x xs ih =>
    cases xs with
    | nil =>
      rcases List.mem_singleton.mp h with rfl
      exact ⟨"", "", by
        apply String.ext
        simp [jsJoin, strData_append]⟩
    | cons y ys =>
      rcases List.mem_cons.mp h with rfl | hmem
      · exact ⟨"", sep ++ jsJoin sep (y :: ys), by
          apply String.ext
          simp [jsJoin, strData_append, List.append_assoc]⟩
      · obtain ⟨a, b, hab⟩ := ih hmem
        refine ⟨x ++ sep ++ a, b, ?_⟩
        apply String.ext
        have := congrArg String.data hab
        simp only [strData_append] at this ⊢
        simp [jsJoin, strData_append, this, List.append_assoc]

theorem unknownEruMsg_names_value (s : String) (m : EruMap) :
    ∃ a b, unknownEruMsg s m = a ++ s ++ b :=
  ⟨"Unknown ERU type: ",
   ". Available types: " ++ jsJoin ", " (m.map Prod.fst), by
    apply String.ext
    simp [unknownEruMsg, strData_append, List.append_assoc]⟩

theorem unknownEruMsg_lists_keys (s : String) (m : EruMap) (kk : String)
    (h : kk ∈ m.map Prod.fst) :
    ∃ a b, unknownEruMsg s m = a ++ kk ++ b := by
  obtain ⟨a, b, hab⟩ := jsJoin_mem_decomp ", " kk (m.map Prod.fst) h
  refine ⟨"Unknown ERU type: " ++ s ++ ". Available types: " ++ a, b, ?_⟩
  apply String.ext
  have := congrArg String.data hab
  simp only [strData_append] at this ⊢
  simp [unknownEruMsg, strData_append, this, List.append_assoc]

/-- C5 (amended): for a non-numeric string argument, `getERUsByType`
resolves the lower-cased label through the mapping built from the fetched
catalogue plus aliases, issuing the listing fetch with the resolved
numeric id; `"wash"` resolves to the key of the first catalogue entry
whose lower-cased label contains `wash` provided that key is nonzero and
no later entry's lower-cased label is exactly `wash`; and an unmatched
label fails with the `Unknown ERU type` message that names the attempted
value and enumerates every key of the mapping (the alias keys among
them), with only the catalogue fetch — no ERU listing fetch — issued. -/
theorem eru_label_resolution (net : Net) (st : ClientState) (now : Nat)
    (limit : Int) (catJson : Json) (types : List ERUTypeEntry)
    (hmap : cacheGet st.cache eruMappingCacheKey = none)
    (hcat : cacheGet st.cache eruTypesUrl = none)
    (hnet : net eruTypesUrl (requestHeaders st.token) now = .ok catJson)
    (hdec : decodeEruCatalogue (.json catJson) = some types) :
    (∀ s k, jsIsNaNStr s = true →
      mapLookup (buildEruMapping types) (jsToLower s) = some (.key k) →
      getERUsByType net st now (.str s) limit
        = fetchWithCache net
            ⟨cacheSet (cacheSet st.cache eruTypesUrl ⟨.json catJson, now⟩)
               eruMappingCacheKey ⟨.emap (buildEruMapping types), now⟩,
             st.token, eruTypesUrl :: st.fetchLog⟩
            now (eruListingUrl (toString k) limit)) ∧
    (∀ pre e0 post, types = pre ++ e0 :: post →
      (∀ t ∈ pre, jsIncludes (jsToLower t.label) "wash" = false) →
      jsIncludes (jsToLower e0.label) "wash" = true → e0.key ≠ 0 →
      (∀ t ∈ post, jsToLower t.label ≠ "wash") →
      mapLookup (buildEruMapping types) "wash" = some (.key e0.key)) ∧
    (∀ s, jsIsNaNStr s = true →
      mapLookup (buildEruMapping types) (jsToLower s) = none →
      ∃ st1, getERUsByType net st now (.str s) limit
          = (.error (unknownEruMsg s (buildEruMapping types)), st1) ∧
        st1.fetchLog = eruTypesUrl :: st.fetchLog ∧
        (∃ a b, unknownEruMsg s (buildEruMapping types) = a ++ s ++ b) ∧
        ∀ kk ∈ (buildEruMapping types).map Prod.fst,
          ∃ a b, unknownEruMsg s (buildEruMapping types) = a ++ kk ++ b) := by
  have hfetch : fetchWithCache net st now eruTypesUrl
      = (.ok (.json catJson),
         ⟨cacheSet st.cache eruTypesUrl ⟨.json catJson, now⟩, st.token,
          eruTypesUrl :: st.fetchLog⟩) := by
    rcases fetchWithCache_cases net st now eruTypesUrl with ⟨c, hc, -, -⟩ | heq
    · rw [hcat] at hc
      cases hc
    · rw [heq]
      simp [fetchFresh, hnet]
  have hmapping : getERUTypeMapping net st now
      = (.ok (buildEruMapping types),
         ⟨cacheSet (cacheSet st.cache eruTypesUrl ⟨.json catJson, now⟩)
            eruMappingCacheKey ⟨.emap (buildEruMapping types), now⟩,
          st.token, eruTypesUrl :: st.fetchLog⟩) := by
    simp [getERUTypeMapping, hmap, getERUTypeMappingFresh, getERUTypes,
      hfetch, hdec]
  refine ⟨?_, ?_, ?_⟩
  · intro s k hs hlook
    simp [getERUsByType, hs, hmapping, hlook, eruValToString]
  · intro pre e0 post htypes hpre hinc hkz hpost
    rw [htypes]
    exact buildEruMapping_wash pre e0 post hpre hinc hkz hpost
  · intro s hs hlook
    refine ⟨⟨cacheSet (cacheSet st.cache eruTypesUrl ⟨.json catJson, now⟩)
        eruMappingCacheKey ⟨.emap (buildEruMapping types), now⟩,
      st.token, eruTypesUrl :: st.fetchLog⟩, ?_, rfl,
      unknownEruMsg_names_value s _,
      fun kk hk => unknownEruMsg_lists_keys s _ kk hk⟩
    simp [getERUsByType, hs, hmapping, hlook]

/-- The catalogue JSON of the C5 example: a WASH module entry followed by
a logistics entry. -/
def eruWitnessCat : Json :=
  .arr [.obj [("key", .num 3), ("label", .str "WASH M15")],
        .obj [("key", .num 4), ("label", .str "Logistics ERU")]]

/-- Oracle serving the C5 example catalogue. -/
def eruWitnessNet : Net := fun url _ _ =>
  if url = eruTypesUrl then .ok eruWitnessCat else .ok (.arr [])

/-- Closed instance of `eru_label_resolution`: `"wash"` resolves to key 3
(the first and only wash-containing entry), and `"not-a-real-type"` fails
with the unknown-type error after only the catalogue fetch. -/
theorem eru_label_resolution_witness :
    getERUsByType eruWitnessNet ⟨[], none, []⟩ 0 (.str "wash") 50
      = fetchWithCache eruWitnessNet
          ⟨cacheSet (cacheSet [] eruTypesUrl ⟨.json eruWitnessCat, 0⟩)
             eruMappingCacheKey
             ⟨.emap (buildEruMapping [⟨3, "WASH M15"⟩, ⟨4, "Logistics ERU"⟩]), 0⟩,
           none, eruTypesUrl :: []⟩
          0 (eruListingUrl (toString (3 : Int)) 50) ∧
    mapLookup (buildEruMapping [⟨3, "WASH M15"⟩, ⟨4, "Logistics ERU"⟩]) "wash"
      = some (.key 3) ∧
    ∃ st1, getERUsByType eruWitnessNet ⟨[], none, []⟩ 0
          (.str "not-a-real-type") 50
        = (.error (unknownEruMsg "not-a-real-type"
            (buildEruMapping [⟨3, "WASH M15"⟩, ⟨4, "Logistics ERU"⟩])), st1)
        ∧ st1.fetchLog = eruTypesUrl :: ([] : List String) :=
  ⟨(eru_label_resolution eruWitnessNet ⟨[], none, []⟩ 0 50 eruWitnessCat
      [⟨3, "WASH M15"⟩, ⟨4, "Logistics ERU"⟩] rfl rfl (by simp [eruWitnessNet])
      rfl).1 "wash" 3 (by decide) (by decide),
   (eru_label_resolution eruWitnessNet ⟨[], none, []⟩ 0 50 eruWitnessCat
      [⟨3, "WASH M15"⟩, ⟨4, "Logistics ERU"⟩] rfl rfl (by simp [eruWitnessNet])
      rfl).2.1 [] ⟨3, "WASH M15"⟩ [⟨4, "Logistics ERU"⟩] rfl
      (by intro t ht; cases ht) (by decide) (by decide)
      (by intro t ht; simp at ht; rw [ht]; decide),
   (fun ⟨st1, h1, h2, _, _⟩ => ⟨st1, h1, h2⟩)
     ((eru_label_resolution eruWitnessNet ⟨[], none, []⟩ 0 50 eruWitnessCat
        [⟨3, "WASH M15"⟩, ⟨4, "Logistics ERU"⟩] rfl rfl (by simp [eruWitnessNet])
        rfl).2.2 "not-a-real-type" (by decide) (by decide))⟩

/-- C5, as stated, is false: with the catalogue
`[{key: 1, label: "WASH unit"}, {key: 2, label: "Wash"}]` the first entry
whose lower-cased label contains `wash` has key `1`, yet the later entry
labelled exactly `Wash` overwrites the mapping via its plain label
insertion, so `get_erus_by_type("wash")` resolves to `2` and fetches the
listing for type `2`. -/
theorem eru_wash_first_counterexample :
    jsIncludes (jsToLower "WASH unit") "wash" = true ∧
    mapLookup (buildEruMapping [⟨1, "WASH unit"⟩, ⟨2, "Wash"⟩]) "wash"
      = some (.key 2) ∧
    EruMapVal.key 2 ≠ EruMapVal.key 1 ∧
    (getERUsByType
        (fun url _ _ =>
          if url = eruTypesUrl then
            .ok (.arr [.obj [("key", .num 1), ("label", .str "WASH unit")],
                       .obj [("key", .num 2), ("label", .str "Wash")]])
          else .ok (.arr []))
        ⟨[], none, []⟩ 0 (.str "wash") 50).2.fetchLog
      = [eruListingUrl "2" 50, eruTypesUrl] := by
  refine ⟨by decide, by decide, by decide, ?_⟩
  rfl

end IfrcMcp
